import Mathlib

/-!
Verification development for the medical-claim-classifier repository.

The repository is TypeScript; we give a shallow embedding of its core
pipeline: response validation (`parseLLMResponse`), the transport client
(`callAPI`), per-claim classification (`classifyDenial`), the batch runner
(`processClaims`) and path validation (`validateFilePath`).

JavaScript runtime values flowing through the pipeline are modelled by the
`Json` inductive; the platform pieces that are not part of the repository
(the `JSON.parse` built-in and the HTTP transport) are abstracted as
function parameters, so every theorem quantifies over their behaviour.
-/

/-- A JSON value, modelling the JavaScript values produced by `JSON.parse`.
Numbers are modelled as integers (the source performs no arithmetic on
them; only truthiness and `typeof` checks, which `Int` captures). -/
inductive Json where
  | null : Json
  | bool : Bool → Json
  | num : Int → Json
  | str : String → Json
  | arr : List Json → Json
  | obj : List (String × Json) → Json

/-- JavaScript truthiness of a value: `null`, `false`, `0` and `""` are
falsy; arrays and objects (even empty ones) are truthy. -/
def jsTruthy : Json → Bool
  | .null => false
  | .bool b => b
  | .num n => n != 0
  | .str s => !s.isEmpty
  | .arr _ => true
  | .obj _ => true

/-- Own-property lookup on an object; named properties of non-objects read
by the source (for example `categories` on an array or a string) are
`undefined`, modelled as `none`. -/
def jsMember : Json → String → Option Json
  | .obj fields, k => List.lookup k fields
  | _, _ => none

/-- Property access `v.k` as evaluated by JavaScript: reading a property of
`null` throws a `TypeError`; any other base yields the member (possibly
`undefined`, i.e. `none`). -/
def jsProp : Json → String → Except String (Option Json)
  | .null, k => .error ("TypeError: Cannot read properties of null (reading " ++ k ++ ")")
  | v, k => .ok (jsMember v k)

/-- `Object.hasOwn(v, k)`: true only for objects that carry the key. -/
def hasOwn : Json → String → Bool
  | .obj fields, k => (List.lookup k fields).isSome
  | _, _ => false

/-- Truthiness of a possibly-`undefined` value (`undefined` is falsy). -/
def jsTruthyOpt : Option Json → Bool
  | none => false
  | some v => jsTruthy v

/-- `Array.isArray` on a possibly-`undefined` value. -/
def isArrayOpt : Option Json → Bool
  | some (.arr _) => true
  | _ => false

/-- Elements of a possibly-`undefined` value when it is an array; the
source only iterates after an `Array.isArray` guard, so the `[]` default is
never observed. -/
def elemsOf : Option Json → List Json
  | some (.arr l) => l
  | _ => []

/-- `typeof v === "string"`. -/
def typeofString : Json → Bool
  | .str _ => true
  | _ => false

/-- `Object.hasOwn` applied to a possibly-`undefined` base (guarded by a
truthiness check in the source, so the `none` case is unreachable there). -/
def hasOwnOpt : Option Json → String → Bool
  | none, _ => false
  | some v, k => hasOwn v k

/-- Member lookup on a possibly-`undefined` base. -/
def jsMemberOpt : Option Json → String → Option Json
  | none, _ => none
  | some v, k => jsMember v k

/-- The six allowed `Category` string values (`Object.values(Category)`
from `src/types.ts`). -/
def categoryValues : List String :=
  ["Eligibility", "Coding Error", "Prior Authorization",
   "Incorrect Patient Info", "Payer Specific Rule", "Other"]

/-- `Object.values(Category).includes(category)` for one element of the
`categories` array (a non-string element is never included). -/
def isAllowedCategory : Json → Bool
  | .str s => categoryValues.contains s
  | _ => false

/-- Condition of the first throw of `parseLLMResponse`:
`!responseJSON.categories || !Array.isArray(responseJSON.categories) ||
responseJSON.categories.some(v => typeof v !== "string")`. -/
def badCategoriesShape (cats : Option Json) : Bool :=
  !(jsTruthyOpt cats) || !(isArrayOpt cats)
    || (elemsOf cats).any (fun v => !(typeofString v))

/-- Condition of the second throw of `parseLLMResponse`:
some category value is not among `Object.values(Category)`. -/
def badCategoryValues (cats : Option Json) : Bool :=
  (elemsOf cats).any (fun v => !(isAllowedCategory v))

/-- Condition of the third throw of `parseLLMResponse`:
`!responseJSON.extracted_fields || !["payer", "cpt_codes",
"suggested_action"].every(f => Object.hasOwn(responseJSON.extracted_fields, f))`. -/
def badExtractedShape (ef : Option Json) : Bool :=
  !(jsTruthyOpt ef)
    || !(["payer", "cpt_codes", "suggested_action"].all (fun f => hasOwnOpt ef f))

/-- Condition of the fourth throw of `parseLLMResponse`:
`!Array.isArray(cpt_codes) || cpt_codes.some(c => typeof c !== "string")`. -/
def badCptCodes (cpt : Option Json) : Bool :=
  !(isArrayOpt cpt) || (elemsOf cpt).any (fun v => !(typeofString v))

/-- The validation performed by `parseLLMResponse` on the already-parsed
JSON value, mirroring the four sequential throws of the source
(`llmClient.ts`). Property accesses that the source repeats are bound once;
this is equivalent because they are pure. -/
def validateLLMResponseJson (j : Json) : Except String Json :=
  match jsProp j "categories" with
  | .error e => .error e
  | .ok cats =>
    if badCategoriesShape cats then
      .error "Incorrect categories format in LLM Response"
    else if badCategoryValues cats then
      .error "Invalid category values in LLM Response"
    else
      match jsProp j "extracted_fields" with
      | .error e => .error e
      | .ok ef =>
        if badExtractedShape ef then
          .error "Incorrect extracted_fields format in LLM Response"
        else if badCptCodes (jsMemberOpt ef "cpt_codes") then
          .error "Incorrect cpt_codes in LLM Response"
        else
          .ok j

/-- `parseLLMResponse`: `JSON.parse` the raw model text, then validate.
The platform `JSON.parse` is abstracted as the `jparse` parameter
(`.error` = the text is not parseable JSON); on success the source returns
the parsed value itself, unchanged. -/
def parseLLMResponse (jparse : String → Except String Json)
    (response : String) : Except String Json :=
  match jparse response with
  | .error e => .error e
  | .ok j => validateLLMResponseJson j

/-- Modelled from the spec (section 4.3, rules 2 and 3): the `categories`
field exists, is an array, every element is a string, and every element is
one of the six allowed Category values. -/
def specCategoriesOk (cats : Option Json) : Bool :=
  match cats with
  | some (.arr cs) => cs.all typeofString && cs.all isAllowedCategory
  | _ => false

/-- Modelled from the spec (section 4.3, rules 4 and 5): `extracted_fields`
exists and contains the keys `payer`, `cpt_codes`, `suggested_action`, and
`cpt_codes` is an array whose elements are all strings. -/
def specExtractedOk (ef : Option Json) : Bool :=
  match ef with
  | none => false
  | some v =>
    (["payer", "cpt_codes", "suggested_action"].all (fun k => hasOwn v k)) &&
    (match jsMember v "cpt_codes" with
     | some (.arr l) => l.all typeofString
     | _ => false)

/-- Modelled from the spec (section 4.3): the whole schema demanded of a
model reply — the top-level value is a JSON object, and both the
`categories` and the `extracted_fields` rules hold. -/
def specSchemaValid (j : Json) : Bool :=
  match j with
  | .obj _ =>
    specCategoriesOk (jsMember j "categories") &&
    specExtractedOk (jsMember j "extracted_fields")
  | _ => false

theorem categories_stage_iff (cats : Option Json) :
    (badCategoriesShape cats = false ∧ badCategoryValues cats = false) ↔
      specCategoriesOk cats = true := by
  rcases cats with _ | v
  · simp [badCategoriesShape, jsTruthyOpt, specCategoriesOk]
  · cases v with
    | arr cs =>
      simp only [badCategoriesShape, badCategoryValues, jsTruthyOpt, jsTruthy,
        isArrayOpt, elemsOf, specCategoriesOk, Bool.not_true, Bool.false_or,
        Bool.and_eq_true, List.all_eq_true, List.any_eq_false,
        Bool.not_eq_false, Bool.not_eq_true]
      constructor
      · rintro ⟨h1, h2⟩
        exact ⟨fun x hx => by simpa using h1 x hx, fun x hx => by simpa using h2 x hx⟩
      · rintro ⟨h1, h2⟩
        exact ⟨fun x hx => by simpa using h1 x hx, fun x hx => by simpa using h2 x hx⟩
    | null => simp [badCategoriesShape, jsTruthyOpt, jsTruthy, specCategoriesOk]
    | bool b =>
      cases b <;>
        simp [badCategoriesShape, jsTruthyOpt, jsTruthy, isArrayOpt,
          specCategoriesOk]
    | num n =>
      by_cases hn : n = 0 <;>
        simp [badCategoriesShape, jsTruthyOpt, jsTruthy, isArrayOpt,
          specCategoriesOk, hn]
    | str s =>
      by_cases hs : s.isEmpty <;>
        simp [badCategoriesShape, jsTruthyOpt, jsTruthy, isArrayOpt,
          specCategoriesOk, hs]
    | obj o =>
      simp [badCategoriesShape, jsTruthyOpt, jsTruthy, isArrayOpt,
        specCategoriesOk]

theorem extracted_stage_iff (ef : Option Json) :
    (badExtractedShape ef = false ∧ badCptCodes (jsMemberOpt ef "cpt_codes") = false)
      ↔ specExtractedOk ef = true := by
  rcases ef with _ | v
  · simp [badExtractedShape, jsTruthyOpt, specExtractedOk]
  · cases v with
    | obj efs =>
      rcases hcpt : List.lookup "cpt_codes" efs with _ | cv
      · simp only [badExtractedShape, jsTruthyOpt, jsTruthy, hasOwnOpt,
          jsMemberOpt, jsMember, specExtractedOk, badCptCodes, isArrayOpt,
          elemsOf, hcpt]
        simp
      · cases cv with
        | arr cl =>
          simp only [badExtractedShape, jsTruthyOpt, jsTruthy, hasOwnOpt,
            jsMemberOpt, jsMember, specExtractedOk, badCptCodes, isArrayOpt,
            elemsOf, hcpt]
          simp [List.all_eq_true, List.any_eq_true]
        | null =>
          simp only [badExtractedShape, jsTruthyOpt, jsTruthy, hasOwnOpt,
            jsMemberOpt, jsMember, specExtractedOk, badCptCodes, isArrayOpt,
            elemsOf, hcpt]
          simp
        | bool b =>
          simp only [badExtractedShape, jsTruthyOpt, jsTruthy, hasOwnOpt,
            jsMemberOpt, jsMember, specExtractedOk, badCptCodes, isArrayOpt,
            elemsOf, hcpt]
          simp
        | num n =>
          simp only [badExtractedShape, jsTruthyOpt, jsTruthy, hasOwnOpt,
            jsMemberOpt, jsMember, specExtractedOk, badCptCodes, isArrayOpt,
            elemsOf, hcpt]
          simp
        | str s =>
          simp only [badExtractedShape, jsTruthyOpt, jsTruthy, hasOwnOpt,
            jsMemberOpt, jsMember, specExtractedOk, badCptCodes, isArrayOpt,
            elemsOf, hcpt]
          simp
        | obj o =>
          simp only [badExtractedShape, jsTruthyOpt, jsTruthy, hasOwnOpt,
            jsMemberOpt, jsMember, specExtractedOk, badCptCodes, isArrayOpt,
            elemsOf, hcpt]
          simp
    | null =>
      simp [badExtractedShape, jsTruthyOpt, jsTruthy, specExtractedOk,
        hasOwn, jsMember]
    | bool b =>
      cases b <;>
        simp [badExtractedShape, jsTruthyOpt, jsTruthy, hasOwnOpt, hasOwn,
          specExtractedOk, jsMember]
    | num n =>
      by_cases hn : n = 0 <;>
        simp [badExtractedShape, jsTruthyOpt, jsTruthy, hasOwnOpt, hasOwn,
          specExtractedOk, jsMember, hn]
    | str s =>
      by_cases hs : s.isEmpty <;>
        simp [badExtractedShape, jsTruthyOpt, jsTruthy, hasOwnOpt, hasOwn,
          specExtractedOk, jsMember, hs]
    | arr al =>
      simp [badExtractedShape, jsTruthyOpt, jsTruthy, hasOwnOpt, hasOwn,
        specExtractedOk, jsMember]

theorem validate_ok_iff (j r : Json) :
    validateLLMResponseJson j = .ok r ↔ (r = j ∧ specSchemaValid j = true) := by
  cases j with
  | null => simp [validateLLMResponseJson, jsProp, specSchemaValid]
  | bool b =>
    simp [validateLLMResponseJson, jsProp, jsMember, badCategoriesShape,
      jsTruthyOpt, specSchemaValid]
  | num n =>
    simp [validateLLMResponseJson, jsProp, jsMember, badCategoriesShape,
      jsTruthyOpt, specSchemaValid]
  | str s =>
    simp [validateLLMResponseJson, jsProp, jsMember, badCategoriesShape,
      jsTruthyOpt, specSchemaValid]
  | arr l =>
    simp [validateLLMResponseJson, jsProp, jsMember, badCategoriesShape,
      jsTruthyOpt, specSchemaValid]
  | obj fields =>
    have hspec : specSchemaValid (.obj fields) =
        (specCategoriesOk (jsMember (.obj fields) "categories") &&
          specExtractedOk (jsMember (.obj fields) "extracted_fields")) := rfl
    have hval : validateLLMResponseJson (.obj fields) =
        (if badCategoriesShape (jsMember (.obj fields) "categories") then
          .error "Incorrect categories format in LLM Response"
        else if badCategoryValues (jsMember (.obj fields) "categories") then
          .error "Invalid category values in LLM Response"
        else if badExtractedShape (jsMember (.obj fields) "extracted_fields") then
          .error "Incorrect extracted_fields format in LLM Response"
        else if badCptCodes (jsMemberOpt
            (jsMember (.obj fields) "extracted_fields") "cpt_codes") then
          .error "Incorrect cpt_codes in LLM Response"
        else .ok (.obj fields)) := rfl
    rw [hval, hspec]
    by_cases h1 : badCategoriesShape (jsMember (.obj fields) "categories") = true
    · have : specCategoriesOk (jsMember (.obj fields) "categories") = false := by
        by_contra hc
        rcases (categories_stage_iff _).mpr (eq_true_of_ne_false hc) with ⟨ha, -⟩
        simp [h1] at ha
      simp [h1, this]
    · rw [Bool.not_eq_true] at h1
      by_cases h2 : badCategoryValues (jsMember (.obj fields) "categories") = true
      · have : specCategoriesOk (jsMember (.obj fields) "categories") = false := by
          by_contra hc
          rcases (categories_stage_iff _).mpr (eq_true_of_ne_false hc) with ⟨-, hb⟩
          simp [h2] at hb
        simp [h1, h2, this]
      · rw [Bool.not_eq_true] at h2
        have hcats : specCategoriesOk (jsMember (.obj fields) "categories") = true :=
          (categories_stage_iff _).mp ⟨h1, h2⟩
        by_cases h3 : badExtractedShape (jsMember (.obj fields) "extracted_fields") = true
        · have : specExtractedOk (jsMember (.obj fields) "extracted_fields") = false := by
            by_contra hc
            rcases (extracted_stage_iff _).mpr (eq_true_of_ne_false hc) with ⟨ha, -⟩
            simp [h3] at ha
          simp [h1, h2, h3, this]
        · rw [Bool.not_eq_true] at h3
          by_cases h4 : badCptCodes (jsMemberOpt
              (jsMember (.obj fields) "extracted_fields") "cpt_codes") = true
          · have : specExtractedOk (jsMember (.obj fields) "extracted_fields") = false := by
              by_contra hc
              rcases (extracted_stage_iff _).mpr (eq_true_of_ne_false hc) with ⟨-, hb⟩
              simp [h4] at hb
            simp [h1, h2, h3, h4, this]
          · rw [Bool.not_eq_true] at h4
            have hef : specExtractedOk (jsMember (.obj fields) "extracted_fields") = true :=
              (extracted_stage_iff _).mp ⟨h3, h4⟩
            simp [h1, h2, h3, h4, hcats, hef, eq_comm]

/-- A claim record from the input file (`src/types.ts`, `ClaimInput`). -/
structure ClaimInput where
  id : String
  denial_note : String

/-- An enriched output record (`src/types.ts`, `ClaimOutput`). Because the
source merges raw validated JSON into the record with no coercion, the
`categories` and `extracted_fields` members are kept as JSON values. -/
structure ClaimOutput where
  id : String
  denial_note : String
  categories : Json
  extracted_fields : Json
  error : Option String

/-- One chat message sent to the model. -/
structure ChatMessage where
  role : String
  content : String

/-- The fixed system prompt (`SYSTEM_PROMPT` in `llmClient.ts`). -/
def SYSTEM_PROMPT : String :=
  "You are a medical billing expert. Your task is to classify claim denial notes into structured JSON. Always respond with valid JSON only, no explanations or extra text."

/-- The per-claim user prompt (`createUserPrompt` in `llmClient.ts`),
embedding the denial note verbatim. -/
def createUserPrompt (denialNote : String) : String :=
  "Classify the following medical claim denial note.\n\nDenial Note:\n\"" ++
  denialNote ++
  "\"\n\nReturn a JSON object with this structure:\n\x7b\n  \"categories\": [ \"one or more from: Eligibility, Coding Error, Prior Authorization, Incorrect Patient Info, Payer Specific Rule, Other\" ],\n  \"extracted_fields\": \x7b\n    \"payer\": \"string or null\",\n    \"cpt_codes\": [\"list of codes if any, else []\"],\n    \"suggested_action\": \"short plain English suggestion\"\n  \x7d\n\x7d\n"

/-- The two-message conversation built by `classifyDenial` for a claim. -/
def classifyMessages (claim : ClaimInput) : List ChatMessage :=
  [⟨"system", SYSTEM_PROMPT⟩, ⟨"user", createUserPrompt claim.denial_note⟩]

/-- Member lookup on a validated reply object; validation guarantees the
member is present, so the `Json.null` default is never observed. -/
def getFieldD (j : Json) (k : String) : Json :=
  (jsMember j k).getD Json.null

/-- The failure-free part of `classifyDenial`: call the transport with the
built messages, then parse and validate the reply. The transport (the
source's `callAPI` bound to its configuration) is abstracted as `api`. -/
def classifyPipeline (api : List ChatMessage → Except String String)
    (jparse : String → Except String Json) (claim : ClaimInput) :
    Except String Json :=
  match api (classifyMessages claim) with
  | .error e => .error e
  | .ok resp => parseLLMResponse jparse resp

/-- `classifyDenial` (`llmClient.ts`): build the prompt, call the
transport, validate the reply and merge the parsed `categories` and
`extracted_fields` onto a copy of the claim; any failure is re-raised as a
single classification error naming the claim id and carrying the
underlying message. -/
def classifyDenial (api : List ChatMessage → Except String String)
    (jparse : String → Except String Json) (claim : ClaimInput) :
    Except String ClaimOutput :=
  match classifyPipeline api jparse claim with
  | .ok parsed =>
    .ok { id := claim.id, denial_note := claim.denial_note,
          categories := getFieldD parsed "categories",
          extracted_fields := getFieldD parsed "extracted_fields",
          error := none }
  | .error e =>
    .error ("Failed to classify claim denial (id: " ++ claim.id ++ "): " ++ e)

/-- The per-claim body of the batch loop in `processClaims` (`index.ts`):
on success push the enriched record, on failure push a placeholder that
copies the claim fields and records the failure message, with empty
`categories` array and empty `extracted_fields` object. -/
def stepClaim (classify : ClaimInput → Except String ClaimOutput)
    (c : ClaimInput) : ClaimOutput :=
  match classify c with
  | .ok o => o
  | .error e =>
    { id := c.id, denial_note := c.denial_note, categories := Json.arr [],
      extracted_fields := Json.obj [], error := some e }

/-- The batch loop of `processClaims`: `processed` counts already-handled
claims; after each claim, if `processed + 1 < total` the runner sleeps
500ms. Returns the outputs and the trace of pacing sleeps (ms). -/
def processClaimsGo (classify : ClaimInput → Except String ClaimOutput)
    (total : Nat) : List ClaimInput → Nat → List ClaimOutput × List Nat
  | [], _ => ([], [])
  | c :: rest, processed =>
    let out := stepClaim classify c
    let next := processClaimsGo classify total rest (processed + 1)
    (out :: next.1, (if processed + 1 < total then [500] else []) ++ next.2)

/-- `processClaims` (`index.ts`): drive the classification service over all
claims in order, isolating per-claim failures and pacing between claims.
Returns the output records and the trace of pacing sleeps. -/
def processClaims (claims : List ClaimInput)
    (classify : ClaimInput → Except String ClaimOutput) :
    List ClaimOutput × List Nat :=
  processClaimsGo classify claims.length claims 0

theorem processClaimsGo_fst (classify : ClaimInput → Except String ClaimOutput)
    (total : Nat) :
    ∀ (claims : List ClaimInput) (p : Nat),
      (processClaimsGo classify total claims p).1 = claims.map (stepClaim classify) := by
  intro claims
  induction claims with
  | nil => intro p; rfl
  | cons c rest ih =>
    intro p
    simp [processClaimsGo, ih]

theorem processClaimsGo_snd (classify : ClaimInput → Except String ClaimOutput) :
    ∀ (claims : List ClaimInput) (p total : Nat), total = p + claims.length →
      (processClaimsGo classify total claims p).2 =
        List.replicate (claims.length - 1) 500 := by
  intro claims
  induction claims with
  | nil => intro p total h; rfl
  | cons c rest ih =>
    intro p total h
    simp only [processClaimsGo]
    rw [ih (p + 1) total (by simp only [h, List.length_cons]; omega)]
    cases rest with
    | nil =>
      have : ¬ (p + 1 < total) := by simp only [h, List.length_cons, List.length_nil]; omega
      simp [this]
    | cons d ds =>
      have : p + 1 < total := by simp only [h, List.length_cons]; omega
      simp only [this, if_true, List.length_cons]
      simp [List.replicate_succ]

theorem classifyDenial_ok_shape (api : List ChatMessage → Except String String)
    (jparse : String → Except String Json) (c : ClaimInput) (o : ClaimOutput)
    (h : classifyDenial api jparse c = .ok o) :
    o.id = c.id ∧ o.denial_note = c.denial_note ∧ o.error = none := by
  unfold classifyDenial at h
  cases hp : classifyPipeline api jparse c with
  | ok parsed =>
    rw [hp] at h
    cases h
    exact ⟨rfl, rfl, rfl⟩
  | error e =>
    rw [hp] at h
    cases h

/-- Index access `v[0]` used on `choices`: array element, numeric-string
object key, or single character of a string; only reached behind a
truthiness guard in the source, so the base is never `null`. -/
def jsIndex (v : Json) (i : Nat) : Option Json :=
  match v with
  | .arr l => l.get? i
  | .obj fields => List.lookup (toString i) fields
  | .str s => (s.data.get? i).map (fun ch => .str (String.mk [ch]))
  | _ => none

/-- The body check of one `callAPI` attempt: the guarded chain
`response.data && data.choices && choices[0] && choices[0].message &&
typeof message.content === "string"`, returning the content string when it
passes. `data` is the parsed HTTP response body. -/
def extractContent (data : Json) : Option String :=
  if jsTruthy data then
    match jsMember data "choices" with
    | none => none
    | some choices =>
      if jsTruthy choices then
        match jsIndex choices 0 with
        | none => none
        | some c0 =>
          if jsTruthy c0 then
            match jsMember c0 "message" with
            | none => none
            | some msg =>
              if jsTruthy msg then
                match jsMember msg "content" with
                | some (.str s) => some s
                | _ => none
              else none
          else none
      else none
  else none

/-- One attempt of `callAPI`: the HTTP POST is abstracted as `post`
(indexed by the attempt number; `.error` = axios threw, e.g. a non-2xx
status or a timeout; `.ok` = the parsed response body). A well-shaped body
yields its content, any other body raises the malformed-response error. -/
def attemptOnce (post : Nat → Except String Json) (a : Nat) :
    Except String String :=
  match post a with
  | .error e => .error e
  | .ok data =>
    match extractContent data with
    | some s => .ok s
    | none => .error "Malformed response from OpenRouter API"

/-- The retry loop of `callAPI` over the remaining attempt numbers,
tracking the last error; after a failed attempt `a < 3` it sleeps
`500 * 2 ^ (a - 1)` ms. Returns the result and the trace of backoff
sleeps (ms). -/
def callAPIGo (post : Nat → Except String Json) :
    List Nat → Option String → Except String String × List Nat
  | [], lastErr =>
    (.error ("OpenRouter API call failed after 3 attempts: " ++ lastErr.getD "null"),
     [])
  | a :: rest, _ =>
    match attemptOnce post a with
    | .ok s => (.ok s, [])
    | .error e =>
      let next := callAPIGo post rest (some e)
      (next.1, (if a < 3 then [500 * 2 ^ (a - 1)] else []) ++ next.2)

/-- `callAPI` (`llmClient.ts`): up to 3 attempts with exponential backoff,
returning the first successful content, or a terminal error embedding the
last underlying failure. -/
def callAPI (post : Nat → Except String Json) :
    Except String String × List Nat :=
  callAPIGo post [1, 2, 3] none

/-- Node `path.resolve` segment splitting: split the character list on
the `/` separator. -/
def splitSegs : List Char → List (List Char)
  | [] => [[]]
  | c :: rest =>
    match splitSegs rest with
    | [] => [[]]
    | seg :: segs =>
      if c = '/' then [] :: seg :: segs else (c :: seg) :: segs

/-- One step of path normalization: empty and `.` segments are dropped,
`..` pops the last kept segment, anything else is kept. -/
def resolveStep (st : List String) (part : String) : List String :=
  if part = "" || part = "." then st
  else if part = ".." then st.dropLast
  else st ++ [part]

/-- Normalize a root-anchored path: fold the segments and re-join them
under a leading `/`. -/
def normalizeAbs (p : String) : String :=
  "/" ++ String.intercalate "/" (((splitSegs p.data).map String.mk).foldl resolveStep [])

/-- JavaScript `String.prototype.startsWith`. -/
def jsStartsWith (s pre : String) : Bool :=
  pre.data.isPrefixOf s.data

/-- JavaScript `String.prototype.endsWith`. -/
def jsEndsWith (s suffix : String) : Bool :=
  suffix.data.isSuffixOf s.data

/-- Node `path.resolve(p)` against the current working directory `cwd`
(always absolute in a running process): an absolute `p` is normalized as
is, a relative one is joined onto `cwd` first. -/
def resolvePath (cwd p : String) : String :=
  if jsStartsWith p "/" then normalizeAbs p else normalizeAbs (cwd ++ "/" ++ p)

/-- `validateFilePath` (`src/fileUtils.ts`): reject an empty path, reject a
path not ending in `.json`, otherwise resolve to absolute form. The
`fileType` argument is accepted and unused, as in the source. -/
def validateFilePath (cwd filePath _fileType : String) : Except String String :=
  if filePath = "" then .error "No file path provided"
  else if !(jsEndsWith filePath ".json") then .error "File does not end with .json"
  else .ok (resolvePath cwd filePath)

theorem normalizeAbs_head (p : String) :
    (normalizeAbs p).data.head? = some '/' := by
  unfold normalizeAbs
  cases h : String.intercalate "/" (((splitSegs p.data).map String.mk).foldl resolveStep []) with
  | mk l => rfl

theorem resolvePath_head (cwd p : String) :
    (resolvePath cwd p).data.head? = some '/' := by
  unfold resolvePath
  by_cases h : jsStartsWith p "/" <;> simp [h, normalizeAbs_head]

/-- A well-formed sample model reply. -/
def sampleResultJson : Json :=
  .obj [("categories", .arr [.str "Coding Error"]),
        ("extracted_fields", .obj [("payer", .str "Aetna"),
                                   ("cpt_codes", .arr [.str "99213"]),
                                   ("suggested_action", .str "Resubmit")])]

/-- A well-formed sample model reply whose `categories` array is empty. -/
def emptyCategoriesJson : Json :=
  .obj [("categories", .arr []),
        ("extracted_fields", .obj [("payer", .null),
                                   ("cpt_codes", .arr []),
                                   ("suggested_action", .str "Resubmit")])]

theorem stepClaim_carries_fields (api : List ChatMessage → Except String String)
    (jparse : String → Except String Json) (c : ClaimInput) :
    (stepClaim (classifyDenial api jparse) c).id = c.id ∧
    (stepClaim (classifyDenial api jparse) c).denial_note = c.denial_note := by
  cases hc : classifyDenial api jparse c with
  | ok o =>
    rcases classifyDenial_ok_shape api jparse c o hc with ⟨h1, h2, -⟩
    simp [stepClaim, hc, h1, h2]
  | error e => simp [stepClaim, hc]

/-- C1: for every input sequence of claims, `processClaims` returns an
output sequence of exactly the same length, in which the i-th output
record carries the id and denial note of the i-th input record, for every
transport and parser behaviour (hence under every combination of per-claim
success and failure). -/
theorem processClaims_length_and_order
    (api : List ChatMessage → Except String String)
    (jparse : String → Except String Json) (claims : List ClaimInput) :
    (processClaims claims (classifyDenial api jparse)).1.length = claims.length ∧
    List.Forall₂ (fun (c : ClaimInput) (o : ClaimOutput) =>
        o.id = c.id ∧ o.denial_note = c.denial_note)
      claims (processClaims claims (classifyDenial api jparse)).1 := by
  have hfst : (processClaims claims (classifyDenial api jparse)).1
      = claims.map (stepClaim (classifyDenial api jparse)) :=
    processClaimsGo_fst _ _ claims 0
  rw [hfst]
  constructor
  · simp
  · rw [List.forall₂_map_right_iff, List.forall₂_same]
    intro c _
    exact stepClaim_carries_fields api jparse c

/-- C2: in every output of `processClaims`, the `error` field is set
exactly when classification of that claim failed; when it is set, the
record carries the original claim fields, an empty `categories` array, an
empty `extracted_fields` object and the failure message; and length is
preserved regardless of failures, so a single failure never aborts the
batch. -/
theorem processClaims_error_isolation
    (api : List ChatMessage → Except String String)
    (jparse : String → Except String Json) (claims : List ClaimInput) :
    List.Forall₂ (fun (c : ClaimInput) (o : ClaimOutput) =>
        (o.error.isSome ↔ ∃ e, classifyDenial api jparse c = .error e) ∧
        (∀ e, o.error = some e →
          o.categories = Json.arr [] ∧ o.extracted_fields = Json.obj [] ∧
          o.id = c.id ∧ o.denial_note = c.denial_note ∧
          classifyDenial api jparse c = .error e))
      claims (processClaims claims (classifyDenial api jparse)).1 ∧
    (processClaims claims (classifyDenial api jparse)).1.length = claims.length := by
  have hfst : (processClaims claims (classifyDenial api jparse)).1
      = claims.map (stepClaim (classifyDenial api jparse)) :=
    processClaimsGo_fst _ _ claims 0
  rw [hfst]
  refine ⟨?_, by simp⟩
  rw [List.forall₂_map_right_iff, List.forall₂_same]
  intro c _
  cases hc : classifyDenial api jparse c with
  | ok o =>
    rcases classifyDenial_ok_shape api jparse c o hc with ⟨-, -, herr⟩
    constructor
    · simp only [stepClaim, hc, herr]
      constructor
      · intro h; cases h
      · rintro ⟨e, he⟩
        cases he
    · intro e he
      simp only [stepClaim, hc, herr] at he
      cases he
  | error e0 =>
    constructor
    · simp only [stepClaim, hc]
      constructor
      · intro _; exact ⟨e0, rfl⟩
      · intro _; rfl
    · intro e he
      simp only [stepClaim, hc] at he ⊢
      cases he
      simp

/-- C2 witness: on a one-claim batch whose transport fails, the output
record has its error set to the wrapped message with empty categories and
extracted fields. -/
theorem processClaims_error_isolation_witness :
    List.Forall₂ (fun (c : ClaimInput) (o : ClaimOutput) =>
        (o.error.isSome ↔ ∃ e, classifyDenial
            (fun _ => .error "boom") (fun _ => .error "bad") c = .error e) ∧
        (∀ e, o.error = some e →
          o.categories = Json.arr [] ∧ o.extracted_fields = Json.obj [] ∧
          o.id = c.id ∧ o.denial_note = c.denial_note ∧
          classifyDenial (fun _ => .error "boom") (fun _ => .error "bad") c
            = .error e))
      [⟨"C001", "note"⟩]
      (processClaims [⟨"C001", "note"⟩]
        (classifyDenial (fun _ => .error "boom") (fun _ => .error "bad"))).1 :=
  (processClaims_error_isolation (fun _ => .error "boom")
    (fun _ => .error "bad") [⟨"C001", "note"⟩]).1

/-- C7: the batch runner sleeps exactly 500ms between successive claims,
with no pacing sleep after the last claim: over any input of N claims the
pacing-sleep trace is N-1 occurrences of 500, whatever the per-claim
outcomes. -/
theorem processClaims_pacing (claims : List ClaimInput)
    (classify : ClaimInput → Except String ClaimOutput) :
    (processClaims claims classify).2 = List.replicate (claims.length - 1) 500 :=
  processClaimsGo_snd classify claims 0 claims.length (by omega)

theorem jsProp_ne_null (j : Json) (k : String) (h : j ≠ .null) :
    jsProp j k = .ok (jsMember j k) := by
  cases j with
  | null => exact absurd rfl h
  | bool b => rfl
  | num n => rfl
  | str s => rfl
  | arr l => rfl
  | obj fields => rfl

/-- C3: `parseLLMResponse` succeeds, returning the parsed value unchanged,
exactly when the raw text parses as JSON and the parsed value satisfies the
schema (top-level object; `categories` an array of allowed Category
strings; `extracted_fields` present with the keys `payer`, `cpt_codes`,
`suggested_action`; `cpt_codes` an array of strings); every violation
raises an error naming the rule that failed: a parse failure is re-raised
verbatim, a `null` top level raises the property-access `TypeError`, any
other non-object top level and any bad `categories` shape raise the
categories-format error, a category outside the six allowed values raises
the category-values error, a missing or key-lacking `extracted_fields`
raises the extracted-fields error, and a bad `cpt_codes` raises the
cpt_codes error. -/
theorem parseLLMResponse_validates
    (jparse : String → Except String Json) (s : String) :
    (∀ j : Json, parseLLMResponse jparse s = .ok j ↔
        (jparse s = .ok j ∧ specSchemaValid j = true)) ∧
    (∀ e, jparse s = .error e → parseLLMResponse jparse s = .error e) ∧
    (∀ j, jparse s = .ok j → j = .null →
        parseLLMResponse jparse s =
          .error "TypeError: Cannot read properties of null (reading categories)") ∧
    (∀ j, jparse s = .ok j → j ≠ .null →
      (badCategoriesShape (jsMember j "categories") = true →
        parseLLMResponse jparse s =
          .error "Incorrect categories format in LLM Response") ∧
      (badCategoriesShape (jsMember j "categories") = false →
        badCategoryValues (jsMember j "categories") = true →
        parseLLMResponse jparse s =
          .error "Invalid category values in LLM Response") ∧
      (badCategoriesShape (jsMember j "categories") = false →
        badCategoryValues (jsMember j "categories") = false →
        badExtractedShape (jsMember j "extracted_fields") = true →
        parseLLMResponse jparse s =
          .error "Incorrect extracted_fields format in LLM Response") ∧
      (badCategoriesShape (jsMember j "categories") = false →
        badCategoryValues (jsMember j "categories") = false →
        badExtractedShape (jsMember j "extracted_fields") = false →
        badCptCodes (jsMemberOpt (jsMember j "extracted_fields") "cpt_codes") = true →
        parseLLMResponse jparse s =
          .error "Incorrect cpt_codes in LLM Response")) ∧
    ((∃ e, parseLLMResponse jparse s = .error e) ↔
        ¬ ∃ j, jparse s = .ok j ∧ specSchemaValid j = true) := by
  have h1 : ∀ j : Json, parseLLMResponse jparse s = .ok j ↔
      (jparse s = .ok j ∧ specSchemaValid j = true) := by
    intro j
    unfold parseLLMResponse
    cases hp : jparse s with
    | error e => simp
    | ok j0 =>
      constructor
      · intro h
        rcases (validate_ok_iff j0 j).mp h with ⟨rfl, hv⟩
        exact ⟨rfl, hv⟩
      · rintro ⟨he, hv⟩
        cases he
        exact (validate_ok_iff _ _).mpr ⟨rfl, hv⟩
  refine ⟨h1, ?_, ?_, ?_, ?_, ?_⟩
  · intro e he
    simp only [parseLLMResponse, he]
  · intro j hj hnull
    subst hnull
    simp only [parseLLMResponse, hj]
    rfl
  · intro j hj hne
    have hval : parseLLMResponse jparse s = validateLLMResponseJson j := by
      simp only [parseLLMResponse, hj]
    have hprop : ∀ k, jsProp j k = .ok (jsMember j k) := fun k =>
      jsProp_ne_null j k hne
    refine ⟨?_, ?_, ?_, ?_⟩
    · intro hb
      rw [hval]
      simp [validateLLMResponseJson, hprop, hb]
    · intro hb1 hb2
      rw [hval]
      simp [validateLLMResponseJson, hprop, hb1, hb2]
    · intro hb1 hb2 hb3
      rw [hval]
      simp [validateLLMResponseJson, hprop, hb1, hb2, hb3]
    · intro hb1 hb2 hb3 hb4
      rw [hval]
      simp [validateLLMResponseJson, hprop, hb1, hb2, hb3, hb4]
  · rintro ⟨e, he⟩ ⟨j, hj, hv⟩
    have := (h1 j).mpr ⟨hj, hv⟩
    rw [this] at he
    cases he
  · intro hno
    cases hres : parseLLMResponse jparse s with
    | error e => exact ⟨e, rfl⟩
    | ok j =>
      rcases (h1 j).mp hres with ⟨hj, hv⟩
      exact absurd (⟨j, hj, hv⟩ : ∃ j, jparse s = .ok j ∧ specSchemaValid j = true) hno

/-- C3 witness: a reply satisfying the schema is returned unchanged, and a
reply whose top-level value is a number is rejected with the
categories-format message. -/
theorem parseLLMResponse_validates_witness :
    parseLLMResponse (fun _ => .ok sampleResultJson) "raw" = .ok sampleResultJson ∧
    parseLLMResponse (fun _ => .ok (Json.num 3)) "raw"
      = .error "Incorrect categories format in LLM Response" := by
  constructor
  · exact ((parseLLMResponse_validates (fun _ => .ok sampleResultJson) "raw").1
      sampleResultJson).mpr ⟨rfl, by decide⟩
  · exact ((parseLLMResponse_validates (fun _ => .ok (Json.num 3)) "raw").2.2.2.1
      (Json.num 3) rfl (fun h => Json.noConfusion h)).1 (by decide)

/-- C4: `callAPI` makes at most 3 attempts (its result depends only on the
first three transport outcomes); a success on attempt k returns that body
content after sleeping 500ms, then 1000ms, before attempts 2 and 3
respectively; if all 3 attempts fail it raises an error naming the attempt
count and embedding the last underlying message, with no delay after the
3rd attempt. -/
theorem callAPI_retry_policy (post : Nat → Except String Json) :
    (∀ s, attemptOnce post 1 = .ok s → callAPI post = (.ok s, [])) ∧
    (∀ e1 s, attemptOnce post 1 = .error e1 → attemptOnce post 2 = .ok s →
        callAPI post = (.ok s, [500])) ∧
    (∀ e1 e2 s, attemptOnce post 1 = .error e1 → attemptOnce post 2 = .error e2 →
        attemptOnce post 3 = .ok s → callAPI post = (.ok s, [500, 1000])) ∧
    (∀ e1 e2 e3, attemptOnce post 1 = .error e1 → attemptOnce post 2 = .error e2 →
        attemptOnce post 3 = .error e3 →
        callAPI post =
          (.error ("OpenRouter API call failed after 3 attempts: " ++ e3),
           [500, 1000])) ∧
    (∀ post2 : Nat → Except String Json, post 1 = post2 1 → post 2 = post2 2 →
        post 3 = post2 3 → callAPI post = callAPI post2) := by
  refine ⟨?_, ?_, ?_, ?_, ?_⟩
  · intro s h
    simp [callAPI, callAPIGo, h]
  · intro e1 s h1 h2
    simp [callAPI, callAPIGo, h1, h2]
  · intro e1 e2 s h1 h2 h3
    simp [callAPI, callAPIGo, h1, h2, h3]
  · intro e1 e2 e3 h1 h2 h3
    simp [callAPI, callAPIGo, h1, h2, h3]
  · intro post2 h1 h2 h3
    simp [callAPI, callAPIGo, attemptOnce, h1, h2, h3]

/-- C4 witness: with a transport that always fails, `callAPI` raises the
3-attempt terminal error after backoffs of 500ms and 1000ms. -/
theorem callAPI_retry_policy_witness :
    callAPI (fun _ => .error "boom") =
      (.error ("OpenRouter API call failed after 3 attempts: " ++ "boom"),
       [500, 1000]) :=
  (callAPI_retry_policy (fun _ => .error "boom")).2.2.2.1 "boom" "boom" "boom"
    rfl rfl rfl

/-- C5: for a claim whose model reply is well-formed JSON satisfying the
schema, `classifyDenial` succeeds with `error` unset and with `categories`
and `extracted_fields` exactly the values of the parsed reply, with no
coercion or filtering. -/
theorem classifyDenial_success_exact
    (api : List ChatMessage → Except String String)
    (jparse : String → Except String Json) (claim : ClaimInput) (s : String)
    (j cats ef : Json)
    (hapi : api (classifyMessages claim) = .ok s)
    (hparse : jparse s = .ok j)
    (hvalid : specSchemaValid j = true)
    (hcats : jsMember j "categories" = some cats)
    (hef : jsMember j "extracted_fields" = some ef) :
    classifyDenial api jparse claim =
      .ok { id := claim.id, denial_note := claim.denial_note,
            categories := cats, extracted_fields := ef, error := none } := by
  have hpl : classifyPipeline api jparse claim = .ok j := by
    simp only [classifyPipeline, hapi, parseLLMResponse, hparse]
    exact (validate_ok_iff j j).mpr ⟨rfl, hvalid⟩
  unfold classifyDenial
  rw [hpl]
  simp [getFieldD, hcats, hef]

/-- C5 witness: a concrete schema-conforming reply is merged into the
output exactly as supplied. -/
theorem classifyDenial_success_exact_witness :
    classifyDenial (fun _ => .ok "raw") (fun _ => .ok sampleResultJson)
        ⟨"C001", "CPT code invalid"⟩ =
      .ok { id := "C001", denial_note := "CPT code invalid",
            categories := .arr [.str "Coding Error"],
            extracted_fields := .obj [("payer", .str "Aetna"),
                                      ("cpt_codes", .arr [.str "99213"]),
                                      ("suggested_action", .str "Resubmit")],
            error := none } :=
  classifyDenial_success_exact (fun _ => .ok "raw") (fun _ => .ok sampleResultJson)
    ⟨"C001", "CPT code invalid"⟩ "raw" sampleResultJson
    (.arr [.str "Coding Error"])
    (.obj [("payer", .str "Aetna"), ("cpt_codes", .arr [.str "99213"]),
           ("suggested_action", .str "Resubmit")])
    rfl rfl (by decide) rfl rfl

/-- C6: whenever any step of classification fails (transport, parse or
validation), `classifyDenial` raises a single error whose message names
the claim id and ends with the underlying failure message. -/
theorem classifyDenial_failure_wraps
    (api : List ChatMessage → Except String String)
    (jparse : String → Except String Json) (claim : ClaimInput) (e : String)
    (h : classifyPipeline api jparse claim = .error e) :
    classifyDenial api jparse claim =
      .error ("Failed to classify claim denial (id: " ++ claim.id ++ "): " ++ e) ∧
    ∃ pre mid,
      ("Failed to classify claim denial (id: " ++ claim.id ++ "): " ++ e)
        = pre ++ claim.id ++ (mid ++ e) := by
  constructor
  · unfold classifyDenial
    rw [h]
  · exact ⟨"Failed to classify claim denial (id: ", "): ",
      by simp [String.append_assoc]⟩

/-- C6 witness: a failing transport produces the wrapped per-claim error
naming the claim id and the root cause. -/
theorem classifyDenial_failure_wraps_witness :
    classifyDenial (fun _ => .error "boom") (fun _ => .error "bad")
        ⟨"C001", "note"⟩ =
      .error ("Failed to classify claim denial (id: " ++ "C001" ++ "): " ++ "boom") :=
  (classifyDenial_failure_wraps (fun _ => .error "boom") (fun _ => .error "bad")
    ⟨"C001", "note"⟩ "boom" rfl).1

/-- C8: classification is deterministic: two runs of `classifyDenial` with
the same transport behaviour, the same parser and the same claim yield
identical results. -/
theorem classifyDenial_deterministic
    (api1 api2 : List ChatMessage → Except String String)
    (jparse1 jparse2 : String → Except String Json) (c1 c2 : ClaimInput)
    (ha : api1 = api2) (hj : jparse1 = jparse2) (hc : c1 = c2) :
    classifyDenial api1 jparse1 c1 = classifyDenial api2 jparse2 c2 := by
  rw [ha, hj, hc]

/-- C8 witness: two runs on a fixed stub transport agree. -/
theorem classifyDenial_deterministic_witness :
    classifyDenial (fun _ => .ok "raw") (fun _ => .ok sampleResultJson)
        ⟨"C001", "note"⟩ =
      classifyDenial (fun _ => .ok "raw") (fun _ => .ok sampleResultJson)
        ⟨"C001", "note"⟩ :=
  classifyDenial_deterministic _ _ _ _ _ _ rfl rfl rfl

/-- C9: `validateFilePath` rejects the empty string, rejects any path not
ending in `.json`, and maps every path ending in `.json` to its absolute
resolved form (which always begins with the root separator). -/
theorem validateFilePath_spec (cwd ft p : String) :
    validateFilePath cwd "" ft = .error "No file path provided" ∧
    (p ≠ "" → jsEndsWith p ".json" = false →
      validateFilePath cwd p ft = .error "File does not end with .json") ∧
    (jsEndsWith p ".json" = true →
      validateFilePath cwd p ft = .ok (resolvePath cwd p) ∧
      (resolvePath cwd p).data.head? = some '/') := by
  refine ⟨rfl, ?_, ?_⟩
  · intro hne hend
    simp [validateFilePath, hne, hend]
  · intro hend
    have hne : p ≠ "" := by
      intro hp
      rw [hp] at hend
      exact absurd hend (by decide)
    exact ⟨by simp [validateFilePath, hne, hend], resolvePath_head cwd p⟩

/-- C9 witness: `"claims"` is rejected, and `"/abs/claims.json"` is
accepted and resolved to itself, an absolute path. -/
theorem validateFilePath_spec_witness :
    validateFilePath "/work" "claims" "json" = .error "File does not end with .json" ∧
    validateFilePath "/work" "/abs/claims.json" "json"
      = .ok (resolvePath "/work" "/abs/claims.json") ∧
    resolvePath "/work" "/abs/claims.json" = "/abs/claims.json" := by
  refine ⟨?_, ?_, ?_⟩
  · exact (validateFilePath_spec "/work" "json" "claims").2.1 (by decide) (by decide)
  · exact ((validateFilePath_spec "/work" "json" "/abs/claims.json").2.2 (by decide)).1
  · decide

/-- C10: a reply whose `categories` is the empty array (with a conforming
`extracted_fields`) passes validation, so a successful output can carry an
empty categories list with `error` unset: empty categories does not imply
failure. -/
theorem emptyCategories_success :
    specSchemaValid emptyCategoriesJson = true ∧
    classifyDenial (fun _ => .ok "raw") (fun _ => .ok emptyCategoriesJson)
        ⟨"C1", "note"⟩ =
      .ok { id := "C1", denial_note := "note", categories := Json.arr [],
            extracted_fields := .obj [("payer", .null), ("cpt_codes", .arr []),
                                      ("suggested_action", .str "Resubmit")],
            error := none } := by
  exact ⟨by decide, rfl⟩
